import Mathlib

/-!
Bee detection pipeline (`open_cv.cpp`): store, persister and region extractor.

A shallow embedding of `src/open_cv.cpp`.

* The SQLite handle `sqlite3* db` is the value `Store`: the catalog
  `sqlite_master` (type and name of every table, view and index), the rows of
  the table the name `ul_pszczole` resolves to, in rowid order, and the
  `AUTOINCREMENT` high-water mark kept in `sqlite_sequence`. SQLite resolves
  the names of a statement without regard to ASCII letter case; the catalog
  query of the test compares the stored spelling exactly. Triggers are not
  modelled.
* A C++ function that mutates the database and may throw `std::runtime_error`
  returns `Outcome × Store`: what was thrown (if anything) and the database
  as it is left behind.
* What the SQLite engine and the operating system decide on their own (an I/O
  error, a full disk, a display that cannot be opened) is an explicit input:
  `Engine`, `Env`.
* The OpenCV primitives whose code is not part of the program are inputs too
  (`Vision`), except the two per-pixel ones, `cvtColor` (8-bit `COLOR_BGR2HSV`)
  and `inRange`, which are written out.
-/

namespace BeeHive

/-! ## Data model -/

/-- Integer pixel coordinates: `cv::Point`. -/
structure Point where
  x : Int
  y : Int
deriving DecidableEq, Repr

/-- One contour: `std::vector<Point>`. -/
abbrev Contour := List Point

/-- One row of `ul_pszczole`
(`id INTEGER PRIMARY KEY AUTOINCREMENT, nazwa TEXT, lokalizacja BLOB,
liczba_pszczol INTEGER, data_umieszczenia DATE`). -/
structure Row where
  id : Nat
  nazwa : String
  lokalizacja : String
  liczba_pszczol : Int
  data_umieszczenia : String
deriving DecidableEq, Repr

/-- One row of the catalog `sqlite_master`: the columns `type` (`table`,
`view` or `index`) and `name`, the spelling the object was created with. -/
structure MasterRow where
  type : String
  name : String
deriving DecidableEq, Repr

/-- The database behind a `sqlite3*` handle. -/
structure Store where
  /-- rows of `sqlite_master` -/
  master : List MasterRow
  /-- rows of the table the name `ul_pszczole` resolves to, in rowid order -/
  rows : List Row
  /-- largest rowid ever handed out for `ul_pszczole` (`sqlite_sequence`) -/
  seq : Nat
deriving DecidableEq, Repr

/-- How a call ends: it returns, or it throws `std::runtime_error(what)`. -/
inductive Outcome where
  | ok
  | error (what : String)
deriving DecidableEq, Repr

/-- The table the program works on. -/
def table_name : String := "ul_pszczole"

/-! ## Schema manager -/

/-- Name comparison as SQLite resolves the names of a statement: equal up to
ASCII letter case. -/
def same_name (a b : String) : Bool :=
  a.data.map Char.toLower = b.data.map Char.toLower

/-- Whether the catalog lists an object of type `kind` that the name `name`
resolves to. -/
def names_object (kind name : String) (db : Store) : Bool :=
  db.master.any (fun r => r.type = kind ∧ same_name r.name name)

/-- Call of `sqlite3_exec` on `CREATE TABLE IF NOT EXISTS ul_pszczole (...)`.
`fault` is the engine's own refusal (I/O error, read-only file, ...), `none`
when it has none. A table or a view that the name resolves to satisfies
`IF NOT EXISTS`: the statement does nothing and succeeds. An index of that
name is an error. Otherwise the table is created empty, and because of
`AUTOINCREMENT` the table `sqlite_sequence` is created with it unless it is
there already. -/
def sqlite3_exec_create (fault : Option String) (db : Store) : Option String × Store :=
  match fault with
  | some msg => (some msg, db)
  | none =>
    if names_object "table" table_name db || names_object "view" table_name db then (none, db)
    else if names_object "index" table_name db then
      (some "there is already an index named ul_pszczole", db)
    else
      (none,
        { master := db.master ++ [⟨"table", table_name⟩]
            ++ (if names_object "table" "sqlite_sequence" db then []
                else [⟨"table", "sqlite_sequence"⟩]),
          rows := [], seq := 0 })

/-- Function `create_tables` (lines 23-44). -/
def create_tables (fault : Option String) (db : Store) : Outcome × Store :=
  match sqlite3_exec_create fault db with
  | (some error_message, db1) =>
    (Outcome.error ("Błąd podczas tworzenia tabeli ul_pszczole: " ++ error_message), db1)
  | (none, db1) => (Outcome.ok, db1)

/-- The catalog query of `TEST(DatabaseTest, CreateTable)`:
`SELECT name FROM sqlite_master WHERE type='table' AND name='ul_pszczole'`. -/
def catalog_query (db : Store) : List String :=
  (db.master.filter (fun r => r.type = "table" ∧ r.name = table_name)).map MasterRow.name

/-! ## Persister -/

/-- What the engine decides on its own during one call of `save_to_database`:
the error message of `sqlite3_prepare_v2`, and of the `sqlite3_step` of loop
index `i`, `none` where the call goes through. -/
structure Engine where
  prepare : Option String
  step : Nat → Option String

/-- The four values bound to the `INSERT` statement. -/
structure Bound where
  name : String
  location : String
  bee_count : Int
  date : String
deriving DecidableEq, Repr

/-- Conversion of a `size_t` to `int` (32-bit two's complement). -/
def to_int (n : Nat) : Int :=
  if n % 2 ^ 32 < 2 ^ 31 then ((n % 2 ^ 32 : Nat) : Int) else ((n % 2 ^ 32 : Nat) : Int) - 2 ^ 32

/-- Lines 61-70: the values computed for `contours_yellow[i]`. The loop index
`i` is a `size_t` below the vector's size, so `i + 1` does not wrap. -/
def bind_values (minEnclosingCircle : Contour → Point) (i : Nat) (contour : Contour) : Bound :=
  let center := minEnclosingCircle contour
  { name := "Obszar pszczół " ++ toString (i + 1)
    location := "(" ++ toString center.x ++ ", " ++ toString center.y ++ ")"
    bee_count := to_int contour.length
    date := "2024-04-29" }

/-- Largest rowid among the rows. -/
def max_rowid (rows : List Row) : Nat :=
  rows.foldl (fun m r => max m r.id) 0

/-- The rowid `AUTOINCREMENT` picks: one more than the largest that ever
existed in the table. -/
def next_rowid (db : Store) : Nat :=
  max db.seq (max_rowid db.rows) + 1

/-- The row an `INSERT` of `b` stores under rowid `id`. -/
def Bound.toRow (b : Bound) (id : Nat) : Row :=
  { id := id, nazwa := b.name, lokalizacja := b.location,
    liczba_pszczol := b.bee_count, data_umieszczenia := b.date }

/-- Call of `sqlite3_prepare_v2` on the `INSERT`: the error message, if any. The
statement compiles only when the name resolves to a table; a view cannot be
inserted into, and a missing table is an error. -/
def sqlite3_prepare_v2 (e : Engine) (db : Store) : Option String :=
  if names_object "table" table_name db then e.prepare
  else if names_object "view" table_name db then
    some "cannot modify ul_pszczole because it is a view"
  else some "no such table: ul_pszczole"

/-- Call of `sqlite3_step` on the bound `INSERT`, in autocommit mode: either the engine
refuses and nothing changes, or the row is appended under a fresh rowid. -/
def sqlite3_step (fault : Option String) (db : Store) (b : Bound) : Option String × Store :=
  match fault with
  | some msg => (some msg, db)
  | none =>
    (none, { db with rows := db.rows ++ [b.toRow (next_rowid db)], seq := next_rowid db })

/-- The loop of lines 60-87, from index `i` on; `rest` is `contours_yellow`
from position `i`. -/
def insert_loop (minEnclosingCircle : Contour → Point) (step : Nat → Option String) :
    Nat → List Contour → Store → Outcome × Store
  | _, [], db => (Outcome.ok, db)
  | i, contour :: rest, db =>
    match sqlite3_step (step i) db (bind_values minEnclosingCircle i contour) with
    | (some msg, db1) =>
      (Outcome.error ("Błąd podczas wykonania zapytania INSERT: " ++ msg), db1)
    | (none, db1) => insert_loop minEnclosingCircle step (i + 1) rest db1

/-- Function `save_to_database` (lines 47-91). -/
def save_to_database (minEnclosingCircle : Contour → Point) (e : Engine) (db : Store)
    (contours_yellow : List Contour) : Outcome × Store :=
  match sqlite3_prepare_v2 e db with
  | some msg =>
    (Outcome.error ("Błąd podczas przygotowywania zapytania INSERT: " ++ msg), db)
  | none => insert_loop minEnclosingCircle e.step 0 contours_yellow db

/-! ## Region extractor -/

/-- One pixel of an 8-bit, 3-channel image as `imread` returns it: blue, green,
red, each `0..255`. -/
structure Pixel where
  b : Nat
  g : Nat
  r : Nat
deriving DecidableEq, Repr

/-- One pixel after `COLOR_BGR2HSV`: hue `0..179`, saturation and value
`0..255`. -/
structure Hsv where
  h : Nat
  s : Nat
  v : Nat
deriving DecidableEq, Repr

/-- The three channel bounds of a `cv::Scalar` given to `inRange`. -/
structure Scalar where
  v0 : Nat
  v1 : Nat
  v2 : Nat
deriving DecidableEq, Repr

/-- A `cv::Mat`, as its rows. -/
abbrev Mat (α : Type) := List (List α)

abbrev Image := Mat Pixel

/-- An 8-bit single-channel mask: `255` where the pixel is in range, else `0`. -/
abbrev Mask := Mat Nat

/-- Test `Mat::empty()`: the matrix has no element. -/
def Mat.empty {α : Type} (m : Mat α) : Bool :=
  m.all List.isEmpty

/-- Fixed-point reciprocal used for the saturation: `(255 << 12) / i`, rounded. -/
def sdiv_table (i : Nat) : Int :=
  if i = 0 then 0 else ((2 * (255 * 4096) + i) / (2 * i) : Nat)

/-- Fixed-point reciprocal used for the hue: `(180 << 12) / (6 i)`, rounded. -/
def hdiv_table180 (i : Nat) : Int :=
  if i = 0 then 0 else ((2 * (30 * 4096) + i) / (2 * i) : Nat)

/-- Conversion `cvtColor(.., COLOR_BGR2HSV)` of one 8-bit pixel, the library's integer
arithmetic: `v = max(b, g, r)`, `s = 255 (v - min) / v` (`0` when `v = 0`),
`h` = half the hue angle in degrees. -/
def bgr2hsv (p : Pixel) : Hsv :=
  let b : Int := p.b
  let g : Int := p.g
  let r : Int := p.r
  let v := max (max b g) r
  let vmin := min (min b g) r
  let diff := v - vmin
  let s := (diff * sdiv_table v.toNat + 2048) / 4096
  let h0 := if v = r then g - b
            else if v = g then b - r + 2 * diff
            else r - g + 4 * diff
  let h1 := (h0 * hdiv_table180 diff.toNat + 2048) / 4096
  let h := if h1 < 0 then h1 + 180 else h1
  { h := h.toNat, s := s.toNat, v := v.toNat }

/-- Call `cvtColor(image, hsv, COLOR_BGR2HSV)`: every pixel is converted. -/
def cvtColor (image : Image) : Mat Hsv :=
  image.map (fun row => row.map bgr2hsv)

/-- Call `inRange(hsv, lowerb, upperb, mask)`: bounds are inclusive on every
channel. -/
def inRange (hsv : Mat Hsv) (lowerb upperb : Scalar) : Mask :=
  hsv.map (fun row => row.map (fun p =>
    if lowerb.v0 ≤ p.h ∧ p.h ≤ upperb.v0 ∧ lowerb.v1 ≤ p.s ∧ p.s ≤ upperb.v1
        ∧ lowerb.v2 ≤ p.v ∧ p.v ≤ upperb.v2 then 255 else 0))

def lower_yellow : Scalar := ⟨20, 100, 100⟩
def upper_yellow : Scalar := ⟨30, 255, 255⟩
def lower_black : Scalar := ⟨0, 0, 0⟩
def upper_black : Scalar := ⟨180, 255, 30⟩

/-- Lines 110-125: the mask of the yellow band. -/
def yellow_mask (image : Image) : Mask :=
  inRange (cvtColor image) lower_yellow upper_yellow

/-- Lines 110-133: the mask of the black band. -/
def black_mask (image : Image) : Mask :=
  inRange (cvtColor image) lower_black upper_black

/-- The library and the file system as the pipeline sees them: which image a
path decodes to (an empty one when it cannot be read), `findContours` with
`RETR_EXTERNAL, CHAIN_APPROX_SIMPLE`, and the centre `minEnclosingCircle`
reports. -/
structure Vision where
  imread : String → Image
  findContours : Mask → List Contour
  minEnclosingCircle : Contour → Point

/-- What the surroundings decide during one call of `process_and_detect_bees`:
whether `log.txt` opens, how the engine answers, and the exception of the
display stage (lines 151-166), if it raises one. -/
structure Env where
  log_open : Bool
  engine : Engine
  display : Option String

/-- Function `process_and_detect_bees` (lines 94-176). The `catch` block logs the
exception and throws it again, so the caller sees the same exception. The
display stage draws on the image and waits for a key; it does not touch the
database. -/
def process_and_detect_bees (cv : Vision) (env : Env) (imagePath : String) (db : Store) :
    Outcome × Store :=
  if env.log_open = false then
    (Outcome.error "Błąd: Nie można otworzyć pliku log.txt", db)
  else
    let image := cv.imread imagePath
    if image.empty then
      (Outcome.error "Błąd: Nie można wczytać obrazu.", db)
    else if (cvtColor image).empty then
      (Outcome.error "Błąd: Konwersja kolorów nie powiodła się.", db)
    else
      let contours_yellow := cv.findContours (yellow_mask image)
      let contours_black := cv.findContours (black_mask image)
      if contours_yellow.isEmpty || contours_black.isEmpty then
        (Outcome.ok, db)
      else
        match save_to_database cv.minEnclosingCircle env.engine db contours_yellow with
        | (Outcome.error what, db1) => (Outcome.error what, db1)
        | (Outcome.ok, db1) =>
          match env.display with
          | some what => (Outcome.error what, db1)
          | none => (Outcome.ok, db1)

/-! ## Expected table contents -/

/-- The rows the loop stores for `contours`, in order, when the first of them
has loop index `i` and receives rowid `id0`. -/
def rows_from (minEnclosingCircle : Contour → Point) : Nat → Nat → List Contour → List Row
  | _, _, [] => []
  | id0, i, contour :: rest =>
    (bind_values minEnclosingCircle i contour).toRow id0
      :: rows_from minEnclosingCircle (id0 + 1) (i + 1) rest

/-- The contours one run stores rows for: the yellow ones, unless one of the
two sets is empty. -/
def persisted_contours (cv : Vision) (imagePath : String) : List Contour :=
  if (cv.findContours (yellow_mask (cv.imread imagePath))).isEmpty
      || (cv.findContours (black_mask (cv.imread imagePath))).isEmpty then []
  else cv.findContours (yellow_mask (cv.imread imagePath))

/-! ## Decimal digits -/

/-- Stand-in for `minEnclosingCircle` on one-point contours: the circle around
a single point is centred on it. -/
def first_point : Contour → Point := fun c => c.headD ⟨0, 0⟩

/-- An engine without faults. -/
def engine_ok : Engine := ⟨none, fun _ => none⟩

/-- An engine whose only fault is at the step of loop index `k`. -/
def engine_fail_at (k : Nat) (msg : String) : Engine :=
  ⟨none, fun i => if i = k then some msg else none⟩

/-- A database right after `create_tables`. -/
def db_fresh : Store := ⟨[⟨"table", "ul_pszczole"⟩, ⟨"table", "sqlite_sequence"⟩], [], 0⟩

/-- A database with one earlier row. -/
def db_one : Store :=
  ⟨[⟨"table", "ul_pszczole"⟩, ⟨"table", "sqlite_sequence"⟩],
    [⟨7, "Obszar pszczół 1", "(1, 1)", 4, "2024-04-29"⟩], 7⟩

/-- A database without any object. -/
def db_blank : Store := ⟨[], [], 0⟩

/-- A database whose table was created under the spelling `UL_PSZCZOLE`. -/
def db_upper : Store :=
  ⟨[⟨"table", "UL_PSZCZOLE"⟩, ⟨"table", "sqlite_sequence"⟩],
    [⟨7, "Obszar pszczół 1", "(1, 1)", 4, "2024-04-29"⟩], 7⟩

/-- A database in which `ul_pszczole` is a view over another table. -/
def db_view : Store :=
  ⟨[⟨"table", "ule"⟩, ⟨"view", "ul_pszczole"⟩], [], 0⟩

/-- Contours of one mask row `y` from column `x` on, every set pixel taken as a
region of its own. -/
def row_contours (y : Nat) : Nat → List Nat → List Contour
  | _, [] => []
  | x, v :: rest =>
    if v = 0 then row_contours y (x + 1) rest
    else [⟨(x : Int), (y : Int)⟩] :: row_contours y (x + 1) rest

/-- Stand-in for `findContours` on masks whose set pixels do not touch one
another: each set pixel is one region, outlined by that single point. -/
def findContours_isolated : Nat → Mask → List Contour
  | _, [] => []
  | y, row :: rest => row_contours y 0 row ++ findContours_isolated (y + 1) rest

def yellow_pixel : Pixel := ⟨0, 255, 255⟩
def black_pixel : Pixel := ⟨0, 0, 0⟩
def white_pixel : Pixel := ⟨255, 255, 255⟩

/-- A file system in which every path decodes to `image`. -/
def vision_of (image : Image) : Vision :=
  ⟨fun _ => image, findContours_isolated 0, first_point⟩

/-- Surroundings without faults. -/
def env_ok : Env := ⟨true, engine_ok, none⟩

/-- One row of pixels: two yellow spots and a black one, white in between. -/
def image_two_bees : Image :=
  [[yellow_pixel, white_pixel, black_pixel, white_pixel, yellow_pixel]]

/-! ## Lemmas: rowids -/

theorem foldl_max_ge (rows : List Row) (m : Nat) :
    m ≤ rows.foldl (fun m r => max m r.id) m := by
  induction rows generalizing m with
  | nil => simp
  | cons r rs ih => exact le_trans (le_max_left m r.id) (ih (max m r.id))

theorem foldl_max_mem (rows : List Row) (m : Nat) (r : Row) (hr : r ∈ rows) :
    r.id ≤ rows.foldl (fun m r => max m r.id) m := by
  induction rows generalizing m with
  | nil => simp at hr
  | cons a rs ih =>
    rcases List.mem_cons.mp hr with h | h
    · subst h
      exact le_trans (le_max_right m r.id) (foldl_max_ge rs (max m r.id))
    · exact ih (max m a.id) h

theorem id_lt_next_rowid (db : Store) (r : Row) (hr : r ∈ db.rows) : r.id < next_rowid db := by
  have h := foldl_max_mem db.rows 0 r hr
  unfold next_rowid max_rowid
  omega

theorem max_rowid_append_one (rows : List Row) (r : Row) :
    max_rowid (rows ++ [r]) = max (max_rowid rows) r.id := by
  simp [max_rowid, List.foldl_append]

theorem next_rowid_after_step (db : Store) (b : Bound) :
    next_rowid { db with rows := db.rows ++ [b.toRow (next_rowid db)], seq := next_rowid db }
      = next_rowid db + 1 := by
  have h : max_rowid db.rows < next_rowid db := by
    unfold next_rowid
    omega
  simp only [next_rowid, max_rowid_append_one, Bound.toRow] at h ⊢
  omega

/-! ## Lemmas: the insert loop -/

theorem rows_from_length (mec : Contour → Point) (cs : List Contour) (id0 i : Nat) :
    (rows_from mec id0 i cs).length = cs.length := by
  induction cs generalizing id0 i with
  | nil => rfl
  | cons c rest ih => simp [rows_from, ih]

theorem rows_from_get (mec : Contour → Point) (cs : List Contour) (id0 i j : Nat) :
    (rows_from mec id0 i cs)[j]?
      = (cs[j]?).map (fun c => (bind_values mec (i + j) c).toRow (id0 + j)) := by
  induction cs generalizing id0 i j with
  | nil => simp [rows_from]
  | cons c rest ih =>
    cases j with
    | zero => simp [rows_from]
    | succ j =>
      simp only [rows_from, List.getElem?_cons_succ, ih]
      have h1 : i + 1 + j = i + (j + 1) := by omega
      have h2 : id0 + 1 + j = id0 + (j + 1) := by omega
      rw [h1, h2]

/-- The loop, whatever the engine does: some number `k` of leading steps go
through and store their rows; then the loop either is done (`k` is the number
of contours) or stops at the failing step of index `i + k`. -/
theorem insert_loop_char (mec : Contour → Point) (step : Nat → Option String)
    (cs : List Contour) (i : Nat) (db : Store) :
    ∃ k, k ≤ cs.length
      ∧ (insert_loop mec step i cs db).2.rows
          = db.rows ++ rows_from mec (next_rowid db) i (cs.take k)
      ∧ (insert_loop mec step i cs db).2.master = db.master
      ∧ (∀ j, j < k → step (i + j) = none)
      ∧ (((insert_loop mec step i cs db).1 = Outcome.ok ∧ k = cs.length)
          ∨ ∃ msg, k < cs.length ∧ step (i + k) = some msg
              ∧ (insert_loop mec step i cs db).1
                  = Outcome.error ("Błąd podczas wykonania zapytania INSERT: " ++ msg)) := by
  induction cs generalizing i db with
  | nil =>
    exact ⟨0, le_refl _, by simp [insert_loop, rows_from], rfl, by intro j hj; omega,
      Or.inl ⟨rfl, rfl⟩⟩
  | cons c rest ih =>
    cases hs : step i with
    | some msg =>
      refine ⟨0, Nat.zero_le _, ?_, ?_, by intro j hj; omega, Or.inr ⟨msg, ?_, ?_, ?_⟩⟩
      · simp [insert_loop, sqlite3_step, hs, rows_from]
      · simp [insert_loop, sqlite3_step, hs]
      · simp
      · simpa using hs
      · simp [insert_loop, sqlite3_step, hs]
    | none =>
      have hloop : insert_loop mec step i (c :: rest) db
          = insert_loop mec step (i + 1) rest
              { db with rows := db.rows ++ [(bind_values mec i c).toRow (next_rowid db)],
                        seq := next_rowid db } := by
        simp [insert_loop, sqlite3_step, hs]
      obtain ⟨k, hk, hrows, hmaster, hpre, hend⟩ := ih (i + 1)
        { db with rows := db.rows ++ [(bind_values mec i c).toRow (next_rowid db)],
                  seq := next_rowid db }
      rw [next_rowid_after_step] at hrows
      refine ⟨k + 1, by simpa using hk, ?_, ?_, ?_, ?_⟩
      · rw [hloop, hrows]
        simp [rows_from]
      · rw [hloop, hmaster]
      · intro j hj
        cases j with
        | zero => simpa using hs
        | succ j =>
          have := hpre j (by omega)
          have e : i + (j + 1) = i + 1 + j := by omega
          rw [e]
          exact this
      · rw [hloop]
        have e : i + (k + 1) = i + 1 + k := by omega
        rcases hend with ⟨hok, hkl⟩ | ⟨msg, hlt, hstep, herr⟩
        · exact Or.inl ⟨hok, by simp [hkl]⟩
        · exact Or.inr ⟨msg, by simpa using hlt, by rw [e]; exact hstep, herr⟩

theorem insert_loop_all_ok (mec : Contour → Point) (step : Nat → Option String)
    (cs : List Contour) (i : Nat) (db : Store)
    (hstep : ∀ j, j < cs.length → step (i + j) = none) :
    (insert_loop mec step i cs db).1 = Outcome.ok
      ∧ (insert_loop mec step i cs db).2.rows = db.rows ++ rows_from mec (next_rowid db) i cs := by
  obtain ⟨k, hk, hrows, -, -, hend⟩ := insert_loop_char mec step cs i db
  rcases hend with ⟨hok, hkl⟩ | ⟨msg, hlt, hs, -⟩
  · subst hkl
    exact ⟨hok, by simpa using hrows⟩
  · rw [hstep k hlt] at hs
    cases hs

theorem insert_loop_first_fail (mec : Contour → Point) (step : Nat → Option String)
    (cs : List Contour) (i : Nat) (db : Store) (k : Nat) (msg : String)
    (hk : k < cs.length) (hpre : ∀ j, j < k → step (i + j) = none)
    (hfail : step (i + k) = some msg) :
    (insert_loop mec step i cs db).1
        = Outcome.error ("Błąd podczas wykonania zapytania INSERT: " ++ msg)
      ∧ (insert_loop mec step i cs db).2.rows
          = db.rows ++ rows_from mec (next_rowid db) i (cs.take k) := by
  obtain ⟨k1, hk1, hrows, -, hpre1, hend⟩ := insert_loop_char mec step cs i db
  have hkk : k1 = k := by
    rcases hend with ⟨-, hkl⟩ | ⟨msg1, hlt, hs, -⟩
    · have := hpre1 k (by omega)
      rw [hfail] at this
      cases this
    · rcases Nat.lt_trichotomy k1 k with h | h | h
      · rw [hpre k1 h] at hs
        cases hs
      · exact h
      · have := hpre1 k h
        rw [hfail] at this
        cases this
  subst hkk
  refine ⟨?_, hrows⟩
  rcases hend with ⟨-, hkl⟩ | ⟨msg1, -, hs, herr⟩
  · omega
  · rw [hfail] at hs
    cases hs
    exact herr

theorem insert_loop_ok_rows (mec : Contour → Point) (step : Nat → Option String)
    (cs : List Contour) (i : Nat) (db : Store)
    (hok : (insert_loop mec step i cs db).1 = Outcome.ok) :
    (insert_loop mec step i cs db).2.rows = db.rows ++ rows_from mec (next_rowid db) i cs := by
  obtain ⟨k, hk, hrows, -, -, hend⟩ := insert_loop_char mec step cs i db
  rcases hend with ⟨-, hkl⟩ | ⟨msg, -, -, herr⟩
  · subst hkl
    simpa using hrows
  · rw [herr] at hok
    cases hok

/-- Every call of `save_to_database` leaves the old rows in place and adds the
rows of the first `k` contours, for some `k`; `k` is the number of contours when
the call returns. -/
theorem save_to_database_char (mec : Contour → Point) (e : Engine) (db : Store)
    (cs : List Contour) :
    ∃ k, k ≤ cs.length
      ∧ (save_to_database mec e db cs).2.rows
          = db.rows ++ rows_from mec (next_rowid db) 0 (cs.take k)
      ∧ ((save_to_database mec e db cs).1 = Outcome.ok → k = cs.length) := by
  unfold save_to_database
  cases hp : sqlite3_prepare_v2 e db with
  | some msg =>
    exact ⟨0, Nat.zero_le _, by simp [rows_from], by intro h; cases h⟩
  | none =>
    obtain ⟨k, hk, hrows, -, -, hend⟩ := insert_loop_char mec e.step cs 0 db
    refine ⟨k, hk, hrows, ?_⟩
    intro hok
    rcases hend with ⟨-, hkl⟩ | ⟨msg, -, -, herr⟩
    · exact hkl
    · simp only [] at hok
      rw [herr] at hok
      cases hok

theorem rows_from_take_get (mec : Contour → Point) (cs : List Contour) (id0 k j : Nat)
    (c : Contour) (hc : cs[j]? = some c) (hj : j < k) :
    (rows_from mec id0 0 (cs.take k))[j]? = some ((bind_values mec j c).toRow (id0 + j)) := by
  rw [rows_from_get, List.getElem?_take_of_lt hj, hc]
  simp

/-- Rowids handed out by the loop increase by one from row to row. -/
theorem rows_from_ids (mec : Contour → Point) (cs : List Contour) (id0 i : Nat) :
    (rows_from mec id0 i cs).map Row.id = List.range' id0 cs.length := by
  induction cs generalizing id0 i with
  | nil => rfl
  | cons c rest ih => simp [rows_from, ih, List.range'_succ, Bound.toRow]

/-- Appending freshly inserted rows keeps the rowids strictly increasing. -/
theorem ids_increasing_append (mec : Contour → Point) (db : Store) (cs : List Contour) (i : Nat)
    (h : (db.rows.map Row.id).Pairwise (fun a b => a < b)) :
    ((db.rows ++ rows_from mec (next_rowid db) i cs).map Row.id).Pairwise (fun a b => a < b) := by
  rw [List.map_append, List.pairwise_append]
  refine ⟨h, ?_, ?_⟩
  · rw [rows_from_ids]
    exact List.pairwise_lt_range' _ _
  · intro a ha b hb
    rw [rows_from_ids, List.mem_range'_1] at hb
    obtain ⟨r, hr, rfl⟩ := List.mem_map.mp ha
    have := id_lt_next_rowid db r hr
    omega

/-! ## Lemmas: decimal rendering (`std::to_string`) -/

theorem cvtColor_empty (image : Image) : (cvtColor image).empty = image.empty := by
  unfold cvtColor Mat.empty
  induction image with
  | nil => rfl
  | cons row rest ih =>
    simp only [List.map_cons, List.all_cons, ih]
    cases row <;> rfl

theorem to_int_small (n : Nat) (h : n < 2 ^ 31) : to_int n = (n : Int) := by
  have h1 : n % 2 ^ 32 = n := Nat.mod_eq_of_lt (by omega)
  unfold to_int
  rw [h1, if_pos h]

theorem save_to_database_ok_rows (mec : Contour → Point) (e : Engine) (db : Store)
    (cs : List Contour) (hok : (save_to_database mec e db cs).1 = Outcome.ok) :
    (save_to_database mec e db cs).2.rows = db.rows ++ rows_from mec (next_rowid db) 0 cs := by
  obtain ⟨k, -, hrows, hk⟩ := save_to_database_char mec e db cs
  rw [hrows, hk hok, List.take_length]

theorem get_append_offset {α : Type} (xs ys : List α) (i : Nat) :
    (xs ++ ys)[xs.length + i]? = ys[i]? := by
  rw [List.getElem?_append_right (by omega)]
  simp

/-! ## Persister: theorems -/

/-- C1: when the `INSERT` statement is prepared and every step succeeds,
`save_to_database` returns normally and the table then holds the rows it had,
unchanged and in place, followed by exactly one new row per contour, in
detection order: the new row at position `i` is the one built from contour `i`
(with the next free rowid). -/
theorem save_to_database_appends_in_order (mec : Contour → Point) (e : Engine) (db : Store)
    (cs : List Contour) (hprep : sqlite3_prepare_v2 e db = none)
    (hstep : ∀ i, i < cs.length → e.step i = none) :
    (save_to_database mec e db cs).1 = Outcome.ok
      ∧ (save_to_database mec e db cs).2.rows.length = db.rows.length + cs.length
      ∧ (save_to_database mec e db cs).2.rows.take db.rows.length = db.rows
      ∧ ∀ i c, cs[i]? = some c →
          (save_to_database mec e db cs).2.rows[db.rows.length + i]?
            = some ((bind_values mec i c).toRow (next_rowid db + i)) := by
  have hsave : save_to_database mec e db cs = insert_loop mec e.step 0 cs db := by
    simp [save_to_database, hprep]
  obtain ⟨hok, hrows⟩ := insert_loop_all_ok mec e.step cs 0 db (by simpa using hstep)
  rw [hsave, hrows]
  refine ⟨hok, by simp [rows_from_length], by simp, ?_⟩
  intro i c hc
  rw [get_append_offset, rows_from_get, hc]
  simp

theorem save_to_database_appends_in_order_witness :
    sqlite3_prepare_v2 engine_ok db_one = none
      ∧ (save_to_database first_point engine_ok db_one [[⟨2, 3⟩], [⟨8, 9⟩]]).2.rows
          = [⟨7, "Obszar pszczół 1", "(1, 1)", 4, "2024-04-29"⟩,
             ⟨8, "Obszar pszczół 1", "(2, 3)", 1, "2024-04-29"⟩,
             ⟨9, "Obszar pszczół 2", "(8, 9)", 1, "2024-04-29"⟩]
      ∧ (save_to_database first_point engine_ok db_one [[⟨2, 3⟩], [⟨8, 9⟩]]).1 = Outcome.ok :=
  ⟨by decide, by decide,
    (save_to_database_appends_in_order first_point engine_ok db_one [[⟨2, 3⟩], [⟨8, 9⟩]]
      (by decide) (fun _ _ => rfl)).1⟩

/-- Below `2 ^ 31` points the stored count is exact: whatever the engine does,
the row stored for contour `i` has `liczba_pszczol` equal to the number of
points of that contour. -/
theorem bee_count_exact_below_two_pow_31 (mec : Contour → Point) (e : Engine) (db : Store)
    (cs : List Contour) (i : Nat) (c : Contour) (row : Row)
    (hc : cs[i]? = some c)
    (hrow : (save_to_database mec e db cs).2.rows[db.rows.length + i]? = some row)
    (hsmall : c.length < 2 ^ 31) :
    row.liczba_pszczol = (c.length : Int) := by
  obtain ⟨k, hk, hrows, -⟩ := save_to_database_char mec e db cs
  rw [hrows, get_append_offset, rows_from_get] at hrow
  by_cases hik : i < k
  · rw [List.getElem?_take_of_lt hik, hc] at hrow
    simp only [Option.map_some', Option.some.injEq] at hrow
    rw [← hrow]
    simp [Bound.toRow, bind_values, to_int_small _ hsmall]
  · rw [List.getElem?_eq_none (by simp; omega)] at hrow
    simp at hrow

/-- C6: if the step for contour `k` is the first one the engine refuses,
`save_to_database` throws, and the table holds the rows it had, unchanged and in
place, followed by exactly the `k` rows of the contours before `k`: nothing is
rolled back and nothing later is inserted. -/
theorem save_to_database_first_failure (mec : Contour → Point) (e : Engine) (db : Store)
    (cs : List Contour) (k : Nat) (msg : String)
    (hprep : sqlite3_prepare_v2 e db = none) (hk : k < cs.length)
    (hpre : ∀ i, i < k → e.step i = none) (hfail : e.step k = some msg) :
    (∃ what, (save_to_database mec e db cs).1 = Outcome.error what)
      ∧ (save_to_database mec e db cs).2.rows.length = db.rows.length + k
      ∧ (save_to_database mec e db cs).2.rows.take db.rows.length = db.rows
      ∧ ∀ i c, i < k → cs[i]? = some c →
          (save_to_database mec e db cs).2.rows[db.rows.length + i]?
            = some ((bind_values mec i c).toRow (next_rowid db + i)) := by
  have hsave : save_to_database mec e db cs = insert_loop mec e.step 0 cs db := by
    simp [save_to_database, hprep]
  obtain ⟨herr, hrows⟩ := insert_loop_first_fail mec e.step cs 0 db k msg hk
    (by simpa using hpre) (by simpa using hfail)
  rw [hsave, hrows]
  refine ⟨⟨_, herr⟩, ?_, by simp, ?_⟩
  · simp [rows_from_length]
    omega
  · intro i c hik hc
    rw [get_append_offset, rows_from_take_get mec cs _ k i c hc hik]

theorem save_to_database_first_failure_witness :
    (save_to_database first_point (engine_fail_at 1 "database or disk is full") db_one
        [[⟨2, 3⟩], [⟨8, 9⟩], [⟨5, 5⟩]]).2.rows
        = [⟨7, "Obszar pszczół 1", "(1, 1)", 4, "2024-04-29"⟩,
           ⟨8, "Obszar pszczół 1", "(2, 3)", 1, "2024-04-29"⟩]
      ∧ ∃ what, (save_to_database first_point (engine_fail_at 1 "database or disk is full")
          db_one [[⟨2, 3⟩], [⟨8, 9⟩], [⟨5, 5⟩]]).1 = Outcome.error what :=
  ⟨by decide,
    (save_to_database_first_failure first_point (engine_fail_at 1 "database or disk is full")
      db_one [[⟨2, 3⟩], [⟨8, 9⟩], [⟨5, 5⟩]] 1 "database or disk is full"
      (by decide) (by decide) (by intro i hi; interval_cases i; rfl) (by decide)).1⟩

/-- C7 (as stated, refuted): the exception does not tell which insert failed.
With the same engine message, a failure at index 0 and a failure at index 1
raise the same exception, so no reading of the exception gives the index. -/
theorem error_index_counterexample :
    ¬ ∃ index_of : String → Nat, ∀ k, k < 2 → ∀ what,
        (save_to_database first_point (engine_fail_at k "disk I/O error") db_fresh
          [[⟨2, 3⟩], [⟨8, 9⟩]]).1 = Outcome.error what → index_of what = k := by
  rintro ⟨index_of, h⟩
  have h0 := h 0 (by decide) "Błąd podczas wykonania zapytania INSERT: disk I/O error"
    (by decide)
  have h1 := h 1 (by decide) "Błąd podczas wykonania zapytania INSERT: disk I/O error"
    (by decide)
  omega

/-- C7 (amended): when the step for contour `k` is the first one to fail, the
exception text is the fixed sentence `Błąd podczas wykonania zapytania INSERT: `
followed by the engine's message, and nothing else. -/
theorem save_to_database_error_text (mec : Contour → Point) (e : Engine) (db : Store)
    (cs : List Contour) (k : Nat) (msg : String)
    (hprep : sqlite3_prepare_v2 e db = none) (hk : k < cs.length)
    (hpre : ∀ i, i < k → e.step i = none) (hfail : e.step k = some msg) :
    (save_to_database mec e db cs).1
      = Outcome.error ("Błąd podczas wykonania zapytania INSERT: " ++ msg) := by
  have hsave : save_to_database mec e db cs = insert_loop mec e.step 0 cs db := by
    simp [save_to_database, hprep]
  rw [hsave]
  exact (insert_loop_first_fail mec e.step cs 0 db k msg hk
    (by simpa using hpre) (by simpa using hfail)).1

theorem save_to_database_error_text_witness :
    (save_to_database first_point (engine_fail_at 1 "disk I/O error") db_fresh
        [[⟨2, 3⟩], [⟨8, 9⟩]]).1
      = Outcome.error "Błąd podczas wykonania zapytania INSERT: disk I/O error" :=
  save_to_database_error_text first_point (engine_fail_at 1 "disk I/O error") db_fresh
    [[⟨2, 3⟩], [⟨8, 9⟩]] 1 "disk I/O error" (by decide) (by decide)
    (by intro i hi; interval_cases i; rfl) (by decide)

theorem filter_eq_absent {α : Type} [DecidableEq α] (l : List α) (a : α) (h : a ∉ l) :
    l.filter (fun n => decide (n = a)) = [] := by
  rw [List.filter_eq_nil_iff]
  intro x hx
  simp only [decide_eq_true_eq]
  rintro rfl
  exact h hx

theorem filter_eq_once {α : Type} [DecidableEq α] (l : List α) (a : α) (hnd : l.Nodup)
    (hm : a ∈ l) : l.filter (fun n => decide (n = a)) = [a] := by
  induction l with
  | nil => simp at hm
  | cons x xs ih =>
    rw [List.nodup_cons] at hnd
    by_cases hx : x = a
    · subst hx
      simp [List.filter_cons, filter_eq_absent xs x hnd.1]
    · have hm1 : a ∈ xs := by
        rcases List.mem_cons.mp hm with h | h
        · exact absurd h.symm hx
        · exact h
      simp [List.filter_cons, hx, ih hnd.2 hm1]

/-- The catalog query keeps exactly the rows equal to the row of a table
spelled `ul_pszczole`. -/
theorem catalog_query_eq (db : Store) :
    catalog_query db
      = (db.master.filter (fun r => decide (r = ⟨"table", "ul_pszczole"⟩))).map MasterRow.name := by
  unfold catalog_query
  congr 1
  apply List.filter_congr
  intro r _
  rcases r with ⟨t, n⟩
  simp [table_name]

theorem names_table_of_mem (db : Store) (h : (⟨"table", "ul_pszczole"⟩ : MasterRow) ∈ db.master) :
    names_object "table" table_name db = true := by
  unfold names_object
  rw [List.any_eq_true]
  exact ⟨_, h, by decide⟩

theorem create_tables_present (db : Store) (fault : Option String)
    (hmem : (⟨"table", "ul_pszczole"⟩ : MasterRow) ∈ db.master) :
    (create_tables fault db).2 = db ∧ (fault = none → (create_tables fault db).1 = Outcome.ok) := by
  have h := names_table_of_mem db hmem
  cases fault <;> simp [create_tables, sqlite3_exec_create, h]

/-- What a successful `create_tables` leaves behind on a catalog that lists
each object once and in which only a table spelled `ul_pszczole` answers to
that name: that table is listed, exactly once, and the catalog query returns
its name alone. -/
theorem create_tables_catalog (db : Store) (fault1 : Option String)
    (hwf : db.master.Nodup)
    (hexact : ∀ r ∈ db.master, (r.type = "table" ∨ r.type = "view") →
      same_name r.name table_name = true → r = ⟨"table", "ul_pszczole"⟩)
    (hok : (create_tables fault1 db).1 = Outcome.ok) :
    (⟨"table", "ul_pszczole"⟩ : MasterRow) ∈ (create_tables fault1 db).2.master
      ∧ (create_tables fault1 db).2.master.count ⟨"table", "ul_pszczole"⟩ = 1
      ∧ catalog_query (create_tables fault1 db).2 = ["ul_pszczole"] := by
  cases fault1 with
  | some msg => simp [create_tables, sqlite3_exec_create] at hok
  | none =>
    by_cases hn : (names_object "table" table_name db || names_object "view" table_name db) = true
    · have h1 : (create_tables none db).2 = db := by
        simp only [create_tables, sqlite3_exec_create, hn, if_true]
      have hmem : (⟨"table", "ul_pszczole"⟩ : MasterRow) ∈ db.master := by
        rw [Bool.or_eq_true] at hn
        rcases hn with h | h
        · unfold names_object at h
          rw [List.any_eq_true] at h
          obtain ⟨r, hr, hp⟩ := h
          simp only [decide_eq_true_eq] at hp
          rw [← hexact r hr (Or.inl hp.1) hp.2]
          exact hr
        · unfold names_object at h
          rw [List.any_eq_true] at h
          obtain ⟨r, hr, hp⟩ := h
          simp only [decide_eq_true_eq] at hp
          rw [← hexact r hr (Or.inr hp.1) hp.2]
          exact hr
      rw [h1]
      refine ⟨hmem, List.count_eq_one_of_mem hwf hmem, ?_⟩
      rw [catalog_query_eq, filter_eq_once _ _ hwf hmem]
      rfl
    · have hnot : (⟨"table", "ul_pszczole"⟩ : MasterRow) ∉ db.master := by
        intro hmem
        rw [names_table_of_mem db hmem] at hn
        simp at hn
      by_cases hi : names_object "index" table_name db = true
      · simp [create_tables, sqlite3_exec_create, hn, hi] at hok
      · have h1 : (create_tables none db).2
            = { master := db.master ++ [⟨"table", table_name⟩]
                  ++ (if names_object "table" "sqlite_sequence" db then []
                      else [⟨"table", "sqlite_sequence"⟩]),
                rows := [], seq := 0 } := by
          simp only [create_tables, sqlite3_exec_create, hn, hi, if_false, Bool.false_eq_true]
        rw [h1]
        refine ⟨by simp [table_name], ?_, ?_⟩
        · simp only [List.count_append, List.count_eq_zero_of_not_mem hnot]
          cases names_object "table" "sqlite_sequence" db <;> decide
        · rw [catalog_query_eq]
          simp only [List.filter_append, filter_eq_absent _ _ hnot]
          cases names_object "table" "sqlite_sequence" db <;> decide

/-- C10 (as stated, refuted): on a database whose table was created under the
spelling `UL_PSZCZOLE`, and on one where `ul_pszczole` is a view,
`create_tables` succeeds without doing anything and the catalog query for the
table name returns no row. -/
theorem create_tables_name_counterexample :
    create_tables none db_upper = (Outcome.ok, db_upper)
      ∧ catalog_query (create_tables none db_upper).2 = []
      ∧ create_tables none db_view = (Outcome.ok, db_view)
      ∧ catalog_query (create_tables none db_view).2 = [] := by
  decide

/-- C10 (amended): on a database whose catalog lists each object once and in
which any table or view answering to the name `ul_pszczole` (up to letter
case) is a table spelled exactly `ul_pszczole`, after `create_tables` has
succeeded the catalog query for `ul_pszczole` returns that name and nothing
else. Calling `create_tables` again then changes nothing, whatever the engine
answers: the database is the same value (the same catalog, the same rows),
the table is listed exactly once, and unless the engine raises a fault of its
own the call succeeds. A first call that finds the table leaves the database
as it is, too. -/
theorem create_tables_idempotent (db : Store) (fault1 fault2 : Option String)
    (hwf : db.master.Nodup)
    (hexact : ∀ r ∈ db.master, (r.type = "table" ∨ r.type = "view") →
      same_name r.name table_name = true → r = ⟨"table", "ul_pszczole"⟩)
    (hok : (create_tables fault1 db).1 = Outcome.ok) :
    catalog_query (create_tables fault1 db).2 = ["ul_pszczole"]
      ∧ (create_tables fault2 (create_tables fault1 db).2).2 = (create_tables fault1 db).2
      ∧ (fault2 = none →
          (create_tables fault2 (create_tables fault1 db).2).1 = Outcome.ok)
      ∧ (create_tables fault2 (create_tables fault1 db).2).2.master.count
          ⟨"table", "ul_pszczole"⟩ = 1
      ∧ ((⟨"table", "ul_pszczole"⟩ : MasterRow) ∈ db.master →
          (create_tables fault1 db).2 = db) := by
  obtain ⟨hmem1, hcount1, hquery1⟩ := create_tables_catalog db fault1 hwf hexact hok
  obtain ⟨hsame, hsucc⟩ := create_tables_present (create_tables fault1 db).2 fault2 hmem1
  refine ⟨hquery1, hsame, hsucc, ?_, fun hmem => (create_tables_present db fault1 hmem).1⟩
  rw [hsame]
  exact hcount1

theorem create_tables_idempotent_witness :
    catalog_query (create_tables none db_blank).2 = ["ul_pszczole"]
      ∧ (create_tables none (create_tables none db_blank).2)
          = (Outcome.ok, ⟨[⟨"table", "ul_pszczole"⟩, ⟨"table", "sqlite_sequence"⟩], [], 0⟩)
      ∧ (create_tables none db_one) = (Outcome.ok, db_one) :=
  ⟨(create_tables_idempotent db_blank none none (by decide) (by decide) (by decide)).1,
    by decide, by decide⟩

/-! ## Pipeline: lemmas -/

theorem process_ok_rows (cv : Vision) (env : Env) (imagePath : String) (db : Store)
    (hok : (process_and_detect_bees cv env imagePath db).1 = Outcome.ok) :
    (process_and_detect_bees cv env imagePath db).2.rows
      = db.rows ++ rows_from cv.minEnclosingCircle (next_rowid db) 0
          (persisted_contours cv imagePath) := by
  unfold process_and_detect_bees persisted_contours at *
  by_cases h1 : env.log_open = false
  · simp [h1] at hok
  by_cases h2 : (cv.imread imagePath).empty = true
  · simp [h1, h2] at hok
  by_cases h3 : (cvtColor (cv.imread imagePath)).empty = true
  · simp [h1, h2, h3] at hok
  by_cases h4 : ((cv.findContours (yellow_mask (cv.imread imagePath))).isEmpty
      || (cv.findContours (black_mask (cv.imread imagePath))).isEmpty) = true
  · simp only [h1, h2, h3, h4, if_true, if_false, Bool.false_eq_true]
    simp [rows_from]
  · simp only [h1, h2, h3, h4, if_true, if_false, Bool.false_eq_true] at hok ⊢
    have hsave := save_to_database_ok_rows cv.minEnclosingCircle env.engine db
      (cv.findContours (yellow_mask (cv.imread imagePath)))
    rcases hs : save_to_database cv.minEnclosingCircle env.engine db
      (cv.findContours (yellow_mask (cv.imread imagePath))) with ⟨o, db1⟩
    rw [hs] at hok hsave
    cases o with
    | error what => simp at hok
    | ok =>
      have hrows := hsave rfl
      cases hd : env.display with
      | some what => simp [hd] at hok
      | none => simpa [hd] using hrows

theorem process_short_circuit (cv : Vision) (env : Env) (imagePath : String) (db : Store)
    (hnone : cv.findContours (yellow_mask (cv.imread imagePath)) = []
      ∨ cv.findContours (black_mask (cv.imread imagePath)) = []) :
    (process_and_detect_bees cv env imagePath db).2 = db := by
  have h4 : ((cv.findContours (yellow_mask (cv.imread imagePath))).isEmpty
      || (cv.findContours (black_mask (cv.imread imagePath))).isEmpty) = true := by
    rcases hnone with h | h <;> simp [h]
  unfold process_and_detect_bees
  by_cases h1 : env.log_open = false
  · simp [h1]
  by_cases h2 : (cv.imread imagePath).empty = true
  · simp [h1, h2]
  by_cases h3 : (cvtColor (cv.imread imagePath)).empty = true
  · simp [h1, h2, h3]
  simp [h1, h2, h3, h4]

theorem mask_uniform (image : Image) (lowerb upperb : Scalar) (p0 : Pixel) (v : Nat)
    (h : ∀ row ∈ image, ∀ p ∈ row, p = p0)
    (hv : inRange (cvtColor [[p0]]) lowerb upperb = [[v]]) :
    ∀ row ∈ inRange (cvtColor image) lowerb upperb, ∀ x ∈ row, x = v := by
  intro row hrow x hx
  simp only [inRange, cvtColor, List.map_map, List.mem_map, Function.comp_apply] at hrow
  obtain ⟨r0, hr0, rfl⟩ := hrow
  simp only [List.mem_map] at hx
  obtain ⟨p, hp, rfl⟩ := hx
  rw [h r0 hr0 p hp]
  simp only [inRange, cvtColor, List.map_cons, List.map_nil, List.cons.injEq, and_true] at hv
  exact hv

theorem row_contours_zero (y : Nat) (row : List Nat) (x0 : Nat) (hz : ∀ x ∈ row, x = 0) :
    row_contours y x0 row = [] := by
  induction row generalizing x0 with
  | nil => rfl
  | cons v rest ih =>
    have hv : v = 0 := hz v (List.mem_cons_self _ _)
    simp only [row_contours, hv, if_true]
    exact ih (x0 + 1) (fun x hx => hz x (List.mem_cons_of_mem _ hx))

theorem findContours_isolated_zero (m : Mask) (y : Nat)
    (h : ∀ row ∈ m, ∀ x ∈ row, x = 0) : findContours_isolated y m = [] := by
  induction m generalizing y with
  | nil => rfl
  | cons row rest ih =>
    simp only [findContours_isolated]
    rw [row_contours_zero y row 0 (h row (List.mem_cons_self _ _)),
      ih (y + 1) (fun r hr1 => h r (List.mem_cons_of_mem _ hr1))]
    rfl

/-! ## Pipeline: theorems -/

/-- C3: for an image that loads (the log file is open, the image is not
empty), if the yellow contour set or the black contour set is empty,
`process_and_detect_bees` returns normally and the database is exactly as it
was. -/
theorem no_regions_short_circuit (cv : Vision) (env : Env) (imagePath : String) (db : Store)
    (hlog : env.log_open = true) (himg : (cv.imread imagePath).empty = false)
    (hnone : cv.findContours (yellow_mask (cv.imread imagePath)) = []
      ∨ cv.findContours (black_mask (cv.imread imagePath)) = []) :
    process_and_detect_bees cv env imagePath db = (Outcome.ok, db) := by
  have h3 : (cvtColor (cv.imread imagePath)).empty = false := by
    rw [cvtColor_empty]
    exact himg
  have h4 : ((cv.findContours (yellow_mask (cv.imread imagePath))).isEmpty
      || (cv.findContours (black_mask (cv.imread imagePath))).isEmpty) = true := by
    rcases hnone with h | h <;> simp [h]
  unfold process_and_detect_bees
  simp [hlog, himg, h3, h4]

theorem no_regions_short_circuit_witness :
    (vision_of [[yellow_pixel, white_pixel]]).findContours
        (black_mask ((vision_of [[yellow_pixel, white_pixel]]).imread "ul.jpg")) = []
      ∧ process_and_detect_bees (vision_of [[yellow_pixel, white_pixel]]) env_ok "ul.jpg" db_one
        = (Outcome.ok, db_one) :=
  ⟨by decide,
    no_regions_short_circuit (vision_of [[yellow_pixel, white_pixel]]) env_ok "ul.jpg" db_one
      (by decide) (by decide) (Or.inr (by decide))⟩

/-- C4 (as stated, refuted): an image with one yellow region and no black one.
Extraction yields one yellow contour, the run ends normally, and the table is
still empty. -/
theorem yellow_without_black_counterexample :
    ((vision_of [[yellow_pixel, white_pixel]]).findContours
        (yellow_mask ((vision_of [[yellow_pixel, white_pixel]]).imread "ul.jpg"))).length = 1
      ∧ (process_and_detect_bees (vision_of [[yellow_pixel, white_pixel]]) env_ok "ul.jpg"
          db_fresh).1 = Outcome.ok
      ∧ (process_and_detect_bees (vision_of [[yellow_pixel, white_pixel]]) env_ok "ul.jpg"
          db_fresh).2.rows.length = 0 := by
  decide

/-- C4 (amended): on an initially empty table, one run that ends without an
exception leaves exactly as many rows as there are yellow contours, provided
extraction also finds a black contour; when it finds no black contour the
table stays empty. -/
theorem rows_after_one_run (cv : Vision) (env : Env) (imagePath : String) (db : Store)
    (hempty : db.rows = [])
    (hok : (process_and_detect_bees cv env imagePath db).1 = Outcome.ok) :
    (cv.findContours (black_mask (cv.imread imagePath)) ≠ [] →
        (process_and_detect_bees cv env imagePath db).2.rows.length
          = (cv.findContours (yellow_mask (cv.imread imagePath))).length)
      ∧ (cv.findContours (black_mask (cv.imread imagePath)) = [] →
        (process_and_detect_bees cv env imagePath db).2.rows = []) := by
  rw [process_ok_rows cv env imagePath db hok, hempty]
  unfold persisted_contours
  constructor
  · intro hb
    cases hy : cv.findContours (yellow_mask (cv.imread imagePath)) with
    | nil => simp [rows_from]
    | cons c rest =>
      cases hb1 : cv.findContours (black_mask (cv.imread imagePath)) with
      | nil => exact absurd hb1 hb
      | cons b bs => simp [rows_from_length]
  · intro hb
    simp [hb, rows_from]

theorem rows_after_one_run_witness :
    (vision_of image_two_bees).findContours
        (black_mask ((vision_of image_two_bees).imread "ul.jpg")) ≠ []
      ∧ ((vision_of image_two_bees).findContours
        (yellow_mask ((vision_of image_two_bees).imread "ul.jpg"))).length = 2
      ∧ (process_and_detect_bees (vision_of image_two_bees) env_ok "ul.jpg" db_fresh).2.rows.length
        = 2 :=
  ⟨by decide, by decide,
    (rows_after_one_run (vision_of image_two_bees) env_ok "ul.jpg" db_fresh rfl (by decide)).1
      (by decide)⟩

/-- C5: two runs on the same image, starting from an empty table and both
ending without an exception, leave twice as many rows as the first run alone.
The rows of the first run stay in front, the rowids are strictly increasing in
insertion order over the whole table (hence pairwise distinct), and every
rowid given in the second run is greater than every rowid given in the
first. -/
theorem two_runs_double (cv : Vision) (env1 env2 : Env) (imagePath : String) (db : Store)
    (hempty : db.rows = [])
    (hok1 : (process_and_detect_bees cv env1 imagePath db).1 = Outcome.ok)
    (hok2 : (process_and_detect_bees cv env2 imagePath
      (process_and_detect_bees cv env1 imagePath db).2).1 = Outcome.ok) :
    (process_and_detect_bees cv env2 imagePath
        (process_and_detect_bees cv env1 imagePath db).2).2.rows.length
        = 2 * (process_and_detect_bees cv env1 imagePath db).2.rows.length
      ∧ ((process_and_detect_bees cv env2 imagePath
          (process_and_detect_bees cv env1 imagePath db).2).2.rows.map Row.id).Pairwise
            (fun a b => a < b)
      ∧ ((process_and_detect_bees cv env2 imagePath
          (process_and_detect_bees cv env1 imagePath db).2).2.rows.map Row.id).Nodup
      ∧ (process_and_detect_bees cv env2 imagePath
          (process_and_detect_bees cv env1 imagePath db).2).2.rows.take
            (process_and_detect_bees cv env1 imagePath db).2.rows.length
          = (process_and_detect_bees cv env1 imagePath db).2.rows
      ∧ ∀ r1 ∈ (process_and_detect_bees cv env1 imagePath db).2.rows,
          ∀ r2 ∈ (process_and_detect_bees cv env2 imagePath
            (process_and_detect_bees cv env1 imagePath db).2).2.rows.drop
              (process_and_detect_bees cv env1 imagePath db).2.rows.length,
          r1.id < r2.id := by
  have h1 := process_ok_rows cv env1 imagePath db hok1
  have h2 := process_ok_rows cv env2 imagePath _ hok2
  have hsorted1 : ((process_and_detect_bees cv env1 imagePath db).2.rows.map Row.id).Pairwise
      (fun a b => a < b) := by
    rw [h1]
    exact ids_increasing_append _ db _ 0 (by simp [hempty])
  have hsorted2 := ids_increasing_append cv.minEnclosingCircle
    (process_and_detect_bees cv env1 imagePath db).2 (persisted_contours cv imagePath) 0 hsorted1
  rw [← h2] at hsorted2
  have hlen1 : (process_and_detect_bees cv env1 imagePath db).2.rows.length
      = (persisted_contours cv imagePath).length := by
    rw [h1, hempty]
    simp [rows_from_length]
  refine ⟨?_, hsorted2, ?_, ?_, ?_⟩
  · rw [h2, List.length_append, rows_from_length, hlen1]
    omega
  · exact hsorted2.imp (fun h => Nat.ne_of_lt h)
  · rw [h2, List.take_left]
  · intro r1 hr1 r2 hr2
    rw [h2, List.drop_left] at hr2
    have hid : r2.id ∈ (rows_from cv.minEnclosingCircle
        (next_rowid (process_and_detect_bees cv env1 imagePath db).2) 0
        (persisted_contours cv imagePath)).map Row.id := List.mem_map_of_mem _ hr2
    rw [rows_from_ids, List.mem_range'_1] at hid
    have := id_lt_next_rowid _ r1 hr1
    omega

theorem two_runs_double_witness :
    (process_and_detect_bees (vision_of image_two_bees) env_ok "ul.jpg" db_fresh).2.rows.map Row.id
        = [1, 2]
      ∧ ((process_and_detect_bees (vision_of image_two_bees) env_ok "ul.jpg"
          (process_and_detect_bees (vision_of image_two_bees) env_ok "ul.jpg"
            db_fresh).2).2.rows.map Row.id) = [1, 2, 3, 4]
      ∧ (process_and_detect_bees (vision_of image_two_bees) env_ok "ul.jpg"
          (process_and_detect_bees (vision_of image_two_bees) env_ok "ul.jpg"
            db_fresh).2).2.rows.length
        = 2 * (process_and_detect_bees (vision_of image_two_bees) env_ok "ul.jpg"
            db_fresh).2.rows.length :=
  ⟨by decide, by decide,
    (two_runs_double (vision_of image_two_bees) env_ok env_ok "ul.jpg" db_fresh rfl
      (by decide) (by decide)).1⟩

/-- C8 (as stated, refuted): the pixel of a one-pixel all-black image lies in
the black band, so the black mask is set there and is not empty. -/
theorem black_image_counterexample :
    bgr2hsv black_pixel = ⟨0, 0, 0⟩ ∧ black_mask [[black_pixel]] = [[255]] := by
  decide

/-- C8 (amended): take `findContours` to return nothing on a mask without a
set pixel. For an image whose pixels are all black or all white, no pixel is
in the yellow band, there is no yellow contour, and the pipeline leaves the
database exactly as it was (no insert). If the image is all white, no pixel is
in the black band either and there is no black contour; if it is all black,
every pixel is in the black band. -/
theorem uniform_image_no_insert (cv : Vision) (env : Env) (imagePath : String) (db : Store)
    (hfc : ∀ m : Mask, (∀ row ∈ m, ∀ x ∈ row, x = 0) → cv.findContours m = [])
    (hcol : (∀ row ∈ cv.imread imagePath, ∀ p ∈ row, p = black_pixel)
      ∨ (∀ row ∈ cv.imread imagePath, ∀ p ∈ row, p = white_pixel)) :
    (∀ row ∈ yellow_mask (cv.imread imagePath), ∀ x ∈ row, x = 0)
      ∧ cv.findContours (yellow_mask (cv.imread imagePath)) = []
      ∧ (process_and_detect_bees cv env imagePath db).2 = db
      ∧ ((∀ row ∈ cv.imread imagePath, ∀ p ∈ row, p = white_pixel) →
          (∀ row ∈ black_mask (cv.imread imagePath), ∀ x ∈ row, x = 0)
            ∧ cv.findContours (black_mask (cv.imread imagePath)) = [])
      ∧ ((∀ row ∈ cv.imread imagePath, ∀ p ∈ row, p = black_pixel) →
          ∀ row ∈ black_mask (cv.imread imagePath), ∀ x ∈ row, x = 255) := by
  have hy : ∀ row ∈ yellow_mask (cv.imread imagePath), ∀ x ∈ row, x = 0 := by
    rcases hcol with h | h
    · exact mask_uniform _ lower_yellow upper_yellow black_pixel 0 h (by decide)
    · exact mask_uniform _ lower_yellow upper_yellow white_pixel 0 h (by decide)
  have hyc := hfc _ hy
  refine ⟨hy, hyc, process_short_circuit cv env imagePath db (Or.inl hyc), ?_, ?_⟩
  · intro hw
    have hb := mask_uniform _ lower_black upper_black white_pixel 0 hw (by decide)
    exact ⟨hb, hfc _ hb⟩
  · intro hb
    exact mask_uniform _ lower_black upper_black black_pixel 255 hb (by decide)

theorem uniform_image_no_insert_witness :
    (process_and_detect_bees (vision_of [[black_pixel, black_pixel], [black_pixel, black_pixel]])
        env_ok "ul.jpg" db_one).2 = db_one
      ∧ (process_and_detect_bees (vision_of [[white_pixel, white_pixel]]) env_ok "ul.jpg"
          db_one).2 = db_one :=
  ⟨(uniform_image_no_insert (vision_of [[black_pixel, black_pixel], [black_pixel, black_pixel]])
      env_ok "ul.jpg" db_one (fun m h => findContours_isolated_zero m 0 h)
      (Or.inl (by decide))).2.2.1,
    (uniform_image_no_insert (vision_of [[white_pixel, white_pixel]])
      env_ok "ul.jpg" db_one (fun m h => findContours_isolated_zero m 0 h)
      (Or.inr (by decide))).2.2.1⟩

end BeeHive
